import Mathlib

/-!
Verification of the notebook synchronization/validation core
(src/sync_outputs.py and src/validate_translation.py) over a shallow
embedding.  Python dictionaries holding optional fields are rendered as
structures with `Option` fields; a JSON value that may be absent, null or
an integer (`execution_count`) becomes `Option (Option Int)`.  The opaque
output objects are never interpreted by the code, so they are embedded as
strings copied verbatim.
-/

/-- Opaque result object attached to a code cell (`outputs` entries);
the code copies these verbatim and never inspects them. -/
abbrev Output := String

/-- One notebook cell.  `cell_type` is `.get('cell_type')` (absent ↦ none);
`source` is `.get('source', [])` (absence behaves as `[]` in every use);
`outputs`' presence matters to the synchronizer, hence `Option`;
`execution_count` may be absent (outer none) or present with value null
(inner none) or an integer. -/
structure Cell where
  cell_type : Option String
  source : List String
  outputs : Option (List Output)
  execution_count : Option (Option Int)
deriving DecidableEq

attribute [ext] Cell

/-- A notebook: its cell list plus the single metadata field the code
reads, `metadata.kernelspec.name` (none when any level is missing). -/
structure Document where
  cells : List Cell
  kernel : Option String
deriving DecidableEq

attribute [ext] Document

/-- Loop body of `sync_notebook_outputs` (src/sync_outputs.py lines 28-39)
for one aligned pair: returns the updated translated cell and the amount
(0 or 1) added to `outputs_copied` at this index. -/
def syncCell (orig_cell trans_cell : Cell) : Cell × Nat :=
  if orig_cell.cell_type = some ("code") ∧ trans_cell.cell_type = some ("code") then
    let step1 :=
      match orig_cell.outputs with
      | some os => if 0 < os.length then ({ trans_cell with outputs := some os }, 1)
                   else (trans_cell, 0)
      | none => (trans_cell, 0)
    let step2 :=
      match orig_cell.execution_count with
      | some v => { step1.1 with execution_count := some v }
      | none => step1.1
    (step2, step1.2)
  else (trans_cell, 0)

/-- The `for i in range(min_cells)` loop of `sync_notebook_outputs`:
walks the aligned prefix (length `min` of the two lengths), updating each
translated cell via `syncCell`, keeps the translated cells beyond the
aligned prefix unchanged, and sums the copy count. -/
def syncLoop : List Cell → List Cell → List Cell × Nat
  | [], ts => (ts, 0)
  | _ :: _, [] => ([], 0)
  | oc :: os, tc :: ts =>
    let c := syncCell oc tc
    let rest := syncLoop os ts
    (c.1 :: rest.1, c.2 + rest.2)

/-- `sync_notebook_outputs` (src/sync_outputs.py lines 17-46), restricted
to its in-memory core: returns the updated translated document and the
`outputs_copied` counter.  (File I/O and the cell-count warning print are
peripheral plumbing.) -/
def sync_notebook_outputs (original translated : Document) : Document × Nat :=
  let r := syncLoop original.cells translated.cells
  ({ translated with cells := r.1 }, r.2)

/-- Claim-side counting predicate of C1: both cells are code kind and the
original's `outputs` field is present and non-empty. -/
def c1CountedPair (pr : Cell × Cell) : Bool :=
  decide (pr.1.cell_type = some ("code")) && decide (pr.2.cell_type = some ("code")) &&
    (match pr.1.outputs with
     | some os => decide (0 < os.length)
     | none => false)

lemma syncCell_snd (a b : Cell) : (syncCell a b).2 = if c1CountedPair (a, b) then 1 else 0 := by
  unfold syncCell c1CountedPair
  by_cases h : a.cell_type = some ("code") ∧ b.cell_type = some ("code")
  · simp only [if_pos h, h.1, h.2]
    cases ho : a.outputs with
    | none => simp
    | some os =>
      by_cases hl : 0 < os.length
      · simp [hl]
      · simp [hl]
  · rw [if_neg h]
    rcases not_and_or.mp h with h1 | h1 <;> simp [h1]

lemma syncLoop_snd (l1 l2 : List Cell) :
    (syncLoop l1 l2).2 = ((l1.zip l2).filter c1CountedPair).length := by
  induction l1 generalizing l2 with
  | nil => simp [syncLoop]
  | cons a as ih =>
    cases l2 with
    | nil => simp [syncLoop]
    | cons b bs =>
      simp only [syncLoop, List.zip_cons_cons, List.filter_cons]
      rw [syncCell_snd, ih]
      by_cases h : c1CountedPair (a, b) <;> simp [h, Nat.add_comm]

/-- C1: the integer returned by `sync_notebook_outputs` equals the number
of aligned indices (the zip of the two cell lists stops at the minimum of
the lengths) at which both cells are code kind and the original cell's
`outputs` field is present and non-empty; the `execution_count` copy never
contributes to this count. -/
theorem C1_sync_count_correct (original translated : Document) :
    (sync_notebook_outputs original translated).2 =
      ((original.cells.zip translated.cells).filter c1CountedPair).length := by
  unfold sync_notebook_outputs
  exact syncLoop_snd original.cells translated.cells

/-- Bool test from the claim's words: the cell's `outputs` field is
present and non-empty. -/
def hasNonemptyOutputs (c : Cell) : Bool :=
  match c.outputs with
  | some os => decide (0 < os.length)
  | none => false

lemma syncCell_type (a b : Cell) : (syncCell a b).1.cell_type = b.cell_type := by
  unfold syncCell
  by_cases h : a.cell_type = some ("code") ∧ b.cell_type = some ("code")
  · simp only [if_pos h]
    cases a.outputs with
    | none => cases a.execution_count <;> rfl
    | some os =>
      by_cases hl : 0 < os.length <;> cases a.execution_count <;> simp [hl]
  · simp [if_neg h]

lemma syncCell_source (a b : Cell) : (syncCell a b).1.source = b.source := by
  unfold syncCell
  by_cases h : a.cell_type = some ("code") ∧ b.cell_type = some ("code")
  · simp only [if_pos h]
    cases a.outputs with
    | none => cases a.execution_count <;> rfl
    | some os =>
      by_cases hl : 0 < os.length <;> cases a.execution_count <;> simp [hl]
  · simp [if_neg h]

lemma syncCell_outputs (a b : Cell) :
    (syncCell a b).1.outputs =
      if (a.cell_type = some ("code") ∧ b.cell_type = some ("code")) ∧ hasNonemptyOutputs a
      then a.outputs else b.outputs := by
  unfold syncCell hasNonemptyOutputs
  by_cases h : a.cell_type = some ("code") ∧ b.cell_type = some ("code")
  · simp only [if_pos h]
    cases ho : a.outputs with
    | none => cases a.execution_count <;> simp [h]
    | some os =>
      by_cases hl : 0 < os.length <;> cases a.execution_count <;> simp [hl, h]
  · simp [if_neg h, h]

lemma syncCell_execution_count (a b : Cell) :
    (syncCell a b).1.execution_count =
      if a.cell_type = some ("code") ∧ b.cell_type = some ("code")
      then a.execution_count.or b.execution_count
      else b.execution_count := by
  unfold syncCell
  by_cases h : a.cell_type = some ("code") ∧ b.cell_type = some ("code")
  · simp only [if_pos h]
    cases a.outputs with
    | none => cases a.execution_count <;> simp
    | some os =>
      by_cases hl : 0 < os.length <;> cases a.execution_count <;> simp [hl]
  · simp [if_neg h]

lemma c1CountedPair_congr (a b x : Cell) (h : x.cell_type = b.cell_type) :
    c1CountedPair (a, x) = c1CountedPair (a, b) := by
  unfold c1CountedPair
  rw [h]

lemma syncCell_idem (a b : Cell) : syncCell a (syncCell a b).1 = syncCell a b := by
  have hct : (syncCell a b).1.cell_type = b.cell_type := syncCell_type a b
  have h1 : (syncCell a (syncCell a b).1).1 = (syncCell a b).1 := by
    apply Cell.ext
    · rw [syncCell_type, syncCell_type]
    · rw [syncCell_source, syncCell_source]
    · rw [syncCell_outputs, syncCell_outputs, hct]
      by_cases h : (a.cell_type = some ("code") ∧ b.cell_type = some ("code")) ∧
        hasNonemptyOutputs a = true <;> simp [h]
    · rw [syncCell_execution_count, syncCell_execution_count, hct]
      by_cases h : a.cell_type = some ("code") ∧ b.cell_type = some ("code")
      · simp only [if_pos h]
        cases a.execution_count <;> simp
      · simp [if_neg h]
  have h2 : (syncCell a (syncCell a b).1).2 = (syncCell a b).2 := by
    rw [syncCell_snd, syncCell_snd, c1CountedPair_congr a b _ hct]
  exact Prod.ext h1 h2

lemma syncLoop_idem (l1 l2 : List Cell) :
    syncLoop l1 (syncLoop l1 l2).1 = syncLoop l1 l2 := by
  induction l1 generalizing l2 with
  | nil => rfl
  | cons a as ih =>
    cases l2 with
    | nil => rfl
    | cons b bs =>
      simp only [syncLoop]
      rw [syncCell_idem, ih]

/-- C7: running the synchronizer a second time on the same original and the
once-synchronized translated document changes nothing: the resulting
document (hence every cell's `outputs` and `execution_count`) and the
returned count both equal those of the single run. -/
theorem C7_idempotent (original translated : Document) :
    sync_notebook_outputs original (sync_notebook_outputs original translated).1 =
      sync_notebook_outputs original translated := by
  simp only [sync_notebook_outputs]
  rw [syncLoop_idem]

lemma syncLoop_get? (l1 l2 : List Cell) (i : Nat) (oc tc : Cell)
    (h1 : l1.get? i = some oc) (h2 : l2.get? i = some tc) :
    (syncLoop l1 l2).1.get? i = some (syncCell oc tc).1 := by
  induction i generalizing l1 l2 with
  | zero =>
    cases l1 with
    | nil => simp at h1
    | cons a as =>
      cases l2 with
      | nil => simp at h2
      | cons b bs =>
        simp only [List.get?_cons_zero, Option.some.injEq] at h1 h2
        subst h1; subst h2
        rfl
  | succ n ih =>
    cases l1 with
    | nil => simp at h1
    | cons a as =>
      cases l2 with
      | nil => simp at h2
      | cons b bs =>
        simp only [List.get?_cons_succ] at h1 h2
        simpa only [syncLoop, List.get?_cons_succ] using ih as bs h1 h2

/-- C6: at every aligned index where both cells are code kind, if the
original cell's `outputs` field is absent or an empty list, the translated
cell's `outputs` field after synchronization is exactly what it was
before. -/
theorem C6_nondestructive (original translated : Document) (i : Nat) (oc tc : Cell)
    (h1 : original.cells.get? i = some oc) (h2 : translated.cells.get? i = some tc)
    (hk : oc.cell_type = some ("code") ∧ tc.cell_type = some ("code"))
    (he : oc.outputs = none ∨ oc.outputs = some []) :
    ((sync_notebook_outputs original translated).1.cells.get? i).map Cell.outputs =
      some tc.outputs := by
  have hg := syncLoop_get? original.cells translated.cells i oc tc h1 h2
  have hout : (syncCell oc tc).1.outputs = tc.outputs := by
    rw [syncCell_outputs]
    have hno : hasNonemptyOutputs oc = false := by
      unfold hasNonemptyOutputs
      rcases he with h | h <;> simp [h]
    simp [hno]
  have hc : (sync_notebook_outputs original translated).1.cells =
      (syncLoop original.cells translated.cells).1 := rfl
  rw [hc, hg]
  simp [hout]

/-- C10: at every aligned index where both cells are code kind, the
translated cell's `execution_count` after synchronization is the original
cell's value whenever that field is present on the original (whatever the
value, null included, overwriting the old one), and is unchanged when the
field is absent from the original. -/
theorem C10_run_index_copy (original translated : Document) (i : Nat) (oc tc : Cell)
    (h1 : original.cells.get? i = some oc) (h2 : translated.cells.get? i = some tc)
    (hk : oc.cell_type = some ("code") ∧ tc.cell_type = some ("code")) :
    ((sync_notebook_outputs original translated).1.cells.get? i).map Cell.execution_count =
      some (oc.execution_count.or tc.execution_count) := by
  have hg := syncLoop_get? original.cells translated.cells i oc tc h1 h2
  have hexec : (syncCell oc tc).1.execution_count =
      oc.execution_count.or tc.execution_count := by
    rw [syncCell_execution_count]
    simp [hk]
  have hc : (sync_notebook_outputs original translated).1.cells =
      (syncLoop original.cells translated.cells).1 := rfl
  rw [hc, hg]
  simp [hexec]

/-- Newline separator used when the checks join their per-cell lines. -/
def nl : String := "\n"

/-- Python truthiness of an optional string (`if orig_kernel and ...`):
the field is present and non-empty. -/
def strTruthy : Option String → Bool
  | none => false
  | some s => !s.isEmpty

/-- Python rendering of an optional string inside an f-string. -/
def pyStr : Option String → String
  | none => "None"
  | some s => s

/-- `validate_cell_count` (src/validate_translation.py lines 17-27):
result value plus the issues it appends. -/
def validate_cell_count (o t : Document) : Option Bool × List String :=
  let orig_count := o.cells.length
  let trans_count := t.cells.length
  if orig_count ≠ trans_count then
    (some false, [s!"❌ Cell count mismatch: Original={orig_count}, Translated={trans_count}"])
  else (some true, [])

/-- One iteration of the `validate_cell_types` loop (lines 32-37). -/
def cellTypeMismatchLine (i : Nat) (pr : Cell × Cell) : Option String :=
  let orig_type := pyStr pr.1.cell_type
  let trans_type := pyStr pr.2.cell_type
  if pr.1.cell_type ≠ pr.2.cell_type then some s!"  Cell {i}: {orig_type} → {trans_type}"
  else none

/-- `validate_cell_types` (lines 29-42). -/
def validate_cell_types (o t : Document) : Option Bool × List String :=
  let mismatches := (o.cells.zip t.cells).enum.filterMap fun pr =>
    cellTypeMismatchLine pr.1 pr.2
  if mismatches ≠ [] then
    (some false, [("❌ Cell type mismatches:" ++ nl) ++ String.intercalate nl mismatches])
  else (some true, [])

/-- One iteration of the `validate_code_cells` loop (lines 47-59): the
lines it appends to `mismatches` at index `i`. -/
def codeMismatchLines (i : Nat) (pr : Cell × Cell) : List String :=
  if pr.1.cell_type ≠ some ("code") then []
  else
    let orig_source := String.join pr.1.source
    let trans_source := String.join pr.2.source
    if orig_source ≠ trans_source then
      if orig_source.length < 100 then
        [s!"  Cell {i}: Code differs",
         ("    Original: " ++ orig_source.take 100),
         ("    Translated: " ++ trans_source.take 100)]
      else [s!"  Cell {i}: Code differs"]
    else []

/-- `validate_code_cells` (lines 44-64). -/
def validate_code_cells (o t : Document) : Option Bool × List String :=
  let mismatches := (o.cells.zip t.cells).enum.flatMap fun pr =>
    codeMismatchLines pr.1 pr.2
  if mismatches ≠ [] then
    (some false, [("❌ Code cell mismatches:" ++ nl) ++ String.intercalate nl mismatches])
  else (some true, [])

/-- Loop predicate of `validate_markdown_translated` counting
`total_markdown` (line 72): the original cell is markdown kind. -/
def mdPair (pr : Cell × Cell) : Bool :=
  decide (pr.1.cell_type = some ("markdown"))

/-- Python `not s.strip()`: the string strips to empty, i.e. every
character is whitespace (true for the empty string). -/
def pyStripEmpty (s : String) : Bool := s.toList.all fun c => c.isWhitespace

/-- Loop predicate counting `identical_count` (lines 76-84): original cell
is markdown kind, its joined source does not strip to the empty string,
and the joined sources coincide. -/
def mdIdenticalPair (pr : Cell × Cell) : Bool :=
  mdPair pr && !pyStripEmpty (String.join pr.1.source) &&
    decide (String.join pr.1.source = String.join pr.2.source)

/-- `validate_markdown_translated` (lines 66-90). -/
def validate_markdown_translated (o t : Document) : Option Bool × List String :=
  let pairs := o.cells.zip t.cells
  let total_markdown := (pairs.filter mdPair).length
  let identical_count := (pairs.filter mdIdenticalPair).length
  if 0 < total_markdown ∧ identical_count = total_markdown then
    (some false,
     [s!"⚠️  Warning: All {total_markdown} markdown cells are identical (not translated?)"])
  else (some true, [])

/-- One iteration of the `validate_outputs_present` loop (lines 95-103). -/
def missingOutputsLine (i : Nat) (pr : Cell × Cell) : Option String :=
  if pr.1.cell_type ≠ some ("code") then none
  else
    let orig_outputs := pr.1.outputs.getD []
    let trans_outputs := pr.2.outputs.getD []
    let n := orig_outputs.length
    if 0 < orig_outputs.length ∧ trans_outputs.length = 0 then
      some s!"  Cell {i}: {n} outputs missing"
    else none

/-- `validate_outputs_present` (lines 92-108). -/
def validate_outputs_present (o t : Document) : Option Bool × List String :=
  let missing_outputs := (o.cells.zip t.cells).enum.filterMap fun pr =>
    missingOutputsLine pr.1 pr.2
  if missing_outputs ≠ [] then
    (some false, [("⚠️  Missing outputs:" ++ nl) ++ String.intercalate nl missing_outputs])
  else (some true, [])

/-- `validate_metadata` (lines 110-117).  The Python function has no
`return` statement, so on every path its value is `None` (`none` here);
it only appends a warning when both kernels are truthy and differ. -/
def validate_metadata (o t : Document) : Option Bool × List String :=
  let orig_kernel := o.kernel
  let trans_kernel := t.kernel
  let ko := pyStr orig_kernel
  let kt := pyStr trans_kernel
  if strTruthy orig_kernel && strTruthy trans_kernel && decide (orig_kernel ≠ trans_kernel) then
    (none, [s!"⚠️  Kernel mismatch: {ko} vs {kt}"])
  else (none, [])

/-- A validation method as the `run_all_validations` loop sees it: the
issues it appends (second component) and either a returned value or a
raised exception carrying a message (first component). -/
abbrev CheckFun := Document → Document → Except String (Option Bool) × List String

/-- Wraps a check method that cannot raise. -/
def liftCheck (f : Document → Document → Option Bool × List String) : CheckFun :=
  fun o t => (Except.ok (f o t).1, (f o t).2)

/-- The issue appended by the `except` branch of the loop (line 135). -/
def errLine (nm e : String) : String := s!"❌ Error in {nm} validation: {e}"

/-- The `for name, validation_func in validations` loop of
`run_all_validations` (lines 130-136): collects the per-check results in
order and accumulates the shared issue list; a check that raises is
recorded as `False` with its error text appended. -/
def runChecks : List (String × CheckFun) → Document → Document →
    List (String × Option Bool) × List String
  | [], _, _ => ([], [])
  | (nm, f) :: rest, o, t =>
    let head :=
      match f o t with
      | (Except.ok r, iss) => ([(nm, r)], iss)
      | (Except.error e, iss) => ([(nm, some false)], iss ++ [errLine nm e])
    let tail := runChecks rest o t
    (head.1 ++ tail.1, head.2 ++ tail.2)

/-- The `validations` list (lines 121-128). -/
def validations : List (String × CheckFun) :=
  [(("Cell count"), liftCheck validate_cell_count),
   (("Cell types"), liftCheck validate_cell_types),
   (("Code cells"), liftCheck validate_code_cells),
   (("Markdown translation"), liftCheck validate_markdown_translated),
   (("Outputs present"), liftCheck validate_outputs_present),
   (("Metadata"), liftCheck validate_metadata)]

/-- `run_all_validations` (lines 119-138): the results mapping in
insertion order, plus the accumulated `self.issues`. -/
def run_all_validations (o t : Document) : List (String × Option Bool) × List String :=
  runChecks validations o t

/-- Python truthiness of a stored per-check result (`True`, `False` or
`None`). -/
def pyTruthy : Option Bool → Bool
  | some true => true
  | some false => false
  | none => false

/-- `all(results.values())` computed by `main` (line 173). -/
def all_passed (results : List (String × Option Bool)) : Bool :=
  results.all fun pr => pyTruthy pr.2

/-- The per-file status chosen by `main` (line 174). -/
def report_status (results : List (String × Option Bool)) (issues : List String) : String :=
  if all_passed results && issues.isEmpty then ("✅ PASS") else ("⚠️  ISSUES")

/-- A document with no cells and no kernel metadata. -/
def emptyDoc : Document := ⟨[], none⟩

lemma run_all_results (o t : Document) :
    (run_all_validations o t).1 =
      [(("Cell count"), (validate_cell_count o t).1),
       (("Cell types"), (validate_cell_types o t).1),
       (("Code cells"), (validate_code_cells o t).1),
       (("Markdown translation"), (validate_markdown_translated o t).1),
       (("Outputs present"), (validate_outputs_present o t).1),
       (("Metadata"), (validate_metadata o t).1)] := rfl

lemma validate_metadata_fst (o t : Document) : (validate_metadata o t).1 = none := by
  simp only [validate_metadata]
  split <;> rfl

/-- C2 (evidence of the code bug): on the clean pair of empty documents
every other check returns `True` and no issue is recorded, yet the
`Metadata` entry of the returned mapping is `none` (Python `None`;
`validate_metadata` falls off its end without returning), not a boolean,
so the metadata check never yields `True`. -/
theorem C2_metadata_not_boolean :
    (run_all_validations emptyDoc emptyDoc).1 =
      [(("Cell count"), some true), (("Cell types"), some true), (("Code cells"), some true),
       (("Markdown translation"), some true), (("Outputs present"), some true),
       (("Metadata"), none)] ∧
    (run_all_validations emptyDoc emptyDoc).2 = [] := by
  constructor <;> rfl

/-- C5: for every document pair the results mapping assigns the
`Metadata` check the value `none` — never `True` — hence
`all(results.values())` is false and `main` never reports the PASS
status. -/
theorem C5_never_pass (o t : Document) :
    (run_all_validations o t).1.lookup ("Metadata") = some none ∧
    all_passed (run_all_validations o t).1 = false ∧
    report_status (run_all_validations o t).1 (run_all_validations o t).2 = ("⚠️  ISSUES") := by
  have h1 : (run_all_validations o t).1.lookup ("Metadata") =
      some ((validate_metadata o t).1) := rfl
  have h2 : all_passed (run_all_validations o t).1 = false := by
    rw [run_all_results]
    simp [all_passed, pyTruthy, validate_metadata_fst]
  refine ⟨by rw [h1, validate_metadata_fst], h2, ?_⟩
  simp [report_status, h2]

lemma filterMap_ne_nil_iff {α β : Type} (f : α → Option β) (l : List α) :
    l.filterMap f ≠ [] ↔ ∃ x ∈ l, f x ≠ none := by
  constructor
  · intro h
    by_contra hc
    push_neg at hc
    exact h (List.filterMap_eq_nil_iff.mpr hc)
  · rintro ⟨x, hx, hfx⟩ h
    exact hfx (List.filterMap_eq_nil_iff.mp h x hx)

lemma flatMap_ne_nil_iff {α β : Type} (f : α → List β) (l : List α) :
    l.flatMap f ≠ [] ↔ ∃ x ∈ l, f x ≠ [] := by
  constructor
  · intro h
    by_contra hc
    push_neg at hc
    exact h (List.flatMap_eq_nil_iff.mpr hc)
  · rintro ⟨x, hx, hfx⟩ h
    exact hfx (List.flatMap_eq_nil_iff.mp h x hx)

lemma exists_mem_enum {α : Type} (l : List α) (P : α → Prop) :
    (∃ x ∈ l.enum, P x.2) ↔ ∃ a ∈ l, P a := by
  constructor
  · rintro ⟨x, hx, hP⟩
    refine ⟨x.2, ?_, hP⟩
    have hm := List.mem_map_of_mem Prod.snd hx
    rwa [List.enum_map_snd] at hm
  · rintro ⟨a, ha, hP⟩
    rw [← List.enum_map_snd l] at ha
    rcases List.mem_map.mp ha with ⟨x, hx, hxa⟩
    exact ⟨x, hx, hxa ▸ hP⟩

lemma countP_eq_countP_iff {α : Type} (q p : α → Bool) (l : List α)
    (hqp : ∀ x, q x = true → p x = true) :
    l.countP q = l.countP p ↔ ∀ x ∈ l, p x = true → q x = true := by
  induction l with
  | nil => simp
  | cons a l ih =>
    have hle : l.countP q ≤ l.countP p := List.countP_mono_left fun x _ hx => hqp x hx
    rw [List.countP_cons, List.countP_cons]
    by_cases hq : q a = true
    · have hp := hqp a hq
      rw [if_pos hq, if_pos hp]
      constructor
      · intro h x hx hpx
        rcases List.mem_cons.mp hx with rfl | hx2
        · exact hq
        · exact ih.mp (by omega) x hx2 hpx
      · intro h
        have h2 := ih.mpr fun x hx hpx => h x (List.mem_cons_of_mem a hx) hpx
        omega
    · by_cases hp : p a = true
      · rw [if_neg hq, if_pos hp]
        constructor
        · intro h
          exact absurd h (by omega)
        · intro h
          exact absurd (h a (List.mem_cons_self a l) hp) hq
      · rw [if_neg hq, if_neg hp]
        simp only [Nat.add_zero]
        rw [ih]
        constructor
        · intro h x hx hpx
          rcases List.mem_cons.mp hx with rfl | hx2
          · exact absurd hpx hp
          · exact h x hx2 hpx
        · intro h x hx hpx
          exact h x (List.mem_cons_of_mem a hx) hpx

lemma mdIdenticalPair_imp_mdPair : ∀ pr, mdIdenticalPair pr = true → mdPair pr = true := by
  intro pr h
  simp only [mdIdenticalPair, Bool.and_eq_true] at h
  exact h.1.1

/-- The original document of the C3 counterexample: one markdown cell. -/
def oC3 : Document := ⟨[⟨some ("markdown"), [("hello")], none, none⟩], none⟩

/-- The translated document of the C3 counterexample: the aligned cell is
code kind but carries the same text. -/
def tC3 : Document := ⟨[⟨some ("code"), [("hello")], none, none⟩], none⟩

/-- C3 exactly as the claim states it: the check considers only positions
where BOTH sides are markdown kind and the original content is non-empty,
and returns false exactly when at least one such position exists and all
of them are byte-for-byte identical. -/
abbrev C3_claim_stated (o t : Document) : Prop :=
  (validate_markdown_translated o t).1 = some false ↔
    ((∃ pr ∈ o.cells.zip t.cells,
        pr.1.cell_type = some ("markdown") ∧ pr.2.cell_type = some ("markdown") ∧
        String.join pr.1.source ≠ ("")) ∧
     ∀ pr ∈ o.cells.zip t.cells,
       pr.1.cell_type = some ("markdown") → pr.2.cell_type = some ("markdown") →
       String.join pr.1.source ≠ ("") →
       String.join pr.1.source = String.join pr.2.source)

/-- C3 counterexample: with a markdown original aligned to a code-kind
translated cell of identical text there is no position where both sides
are markdown, so the claim says the check passes, yet the code (which
inspects only the original side's kind) fails it. -/
theorem C3_counterexample : ¬ C3_claim_stated oC3 tC3 := by decide

/-- C3 amended: the coverage check considers positions where the ORIGINAL
cell is markdown kind (the translated side's kind is not examined); it
returns false exactly when at least one such position exists and every
such position has original content that does not strip to whitespace and
is byte-for-byte identical to the translated content; on failure it
records a single aggregate warning. -/
theorem C3_markdown_check_amended (o t : Document) :
    ((validate_markdown_translated o t).1 = some false ↔
      ((∃ pr ∈ o.cells.zip t.cells, pr.1.cell_type = some ("markdown")) ∧
       ∀ pr ∈ o.cells.zip t.cells, pr.1.cell_type = some ("markdown") →
         (pyStripEmpty (String.join pr.1.source) = false ∧
          String.join pr.1.source = String.join pr.2.source))) ∧
    (validate_markdown_translated o t).2.length =
      (if (validate_markdown_translated o t).1 = some false then 1 else 0) := by
  have hcond : (0 < ((o.cells.zip t.cells).filter mdPair).length ∧
      ((o.cells.zip t.cells).filter mdIdenticalPair).length =
        ((o.cells.zip t.cells).filter mdPair).length) ↔
      ((∃ pr ∈ o.cells.zip t.cells, pr.1.cell_type = some ("markdown")) ∧
       ∀ pr ∈ o.cells.zip t.cells, pr.1.cell_type = some ("markdown") →
         (pyStripEmpty (String.join pr.1.source) = false ∧
          String.join pr.1.source = String.join pr.2.source)) := by
    apply and_congr
    · rw [← List.countP_eq_length_filter, List.countP_pos_iff]
      apply exists_congr
      intro pr
      apply and_congr_right
      intro _
      simp [mdPair]
    · rw [← List.countP_eq_length_filter, ← List.countP_eq_length_filter,
        countP_eq_countP_iff mdIdenticalPair mdPair _ mdIdenticalPair_imp_mdPair]
      apply forall_congr'
      intro pr
      apply imp_congr_right
      intro hmem
      simp only [mdPair, mdIdenticalPair, Bool.and_eq_true, Bool.not_eq_true',
        decide_eq_true_eq]
      tauto
  constructor
  · have hfst : (validate_markdown_translated o t).1 = some false ↔
        (0 < ((o.cells.zip t.cells).filter mdPair).length ∧
         ((o.cells.zip t.cells).filter mdIdenticalPair).length =
           ((o.cells.zip t.cells).filter mdPair).length) := by
      by_cases hC : 0 < ((o.cells.zip t.cells).filter mdPair).length ∧
          ((o.cells.zip t.cells).filter mdIdenticalPair).length =
            ((o.cells.zip t.cells).filter mdPair).length
      · simp [validate_markdown_translated, hC]
      · simp [validate_markdown_translated, hC]
    exact hfst.trans hcond
  · by_cases hC : 0 < ((o.cells.zip t.cells).filter mdPair).length ∧
        ((o.cells.zip t.cells).filter mdIdenticalPair).length =
          ((o.cells.zip t.cells).filter mdPair).length
    · simp [validate_markdown_translated, hC]
    · simp [validate_markdown_translated, hC]

lemma codeMismatchLines_ne_nil (i : Nat) (pr : Cell × Cell) :
    codeMismatchLines i pr ≠ [] ↔
      (pr.1.cell_type = some ("code") ∧
       String.join pr.1.source ≠ String.join pr.2.source) := by
  unfold codeMismatchLines
  by_cases h1 : pr.1.cell_type = some ("code")
  · by_cases h2 : String.join pr.1.source = String.join pr.2.source
    · simp [h1, h2]
    · by_cases h3 : (String.join pr.1.source).length < 100 <;> simp [h1, h2, h3]
  · simp [h1]

lemma missingOutputsLine_ne_none (i : Nat) (pr : Cell × Cell) :
    missingOutputsLine i pr ≠ none ↔
      (pr.1.cell_type = some ("code") ∧ 0 < (pr.1.outputs.getD []).length ∧
       (pr.2.outputs.getD []).length = 0) := by
  unfold missingOutputsLine
  by_cases h1 : pr.1.cell_type = some ("code")
  · by_cases h2 : 0 < (pr.1.outputs.getD []).length ∧ (pr.2.outputs.getD []).length = 0
    · simp [h1, h2]
    · simp only [h1]
      simp [h2]
  · simp [h1]

/-- Original document of the C4 counterexample: one code cell with one
output. -/
def oC4 : Document := ⟨[⟨some ("code"), [("x")], some ([("o1")]), none⟩], none⟩

/-- Translated document of the C4 counterexample: the aligned cell is
markdown kind with different text and no outputs. -/
def tC4 : Document := ⟨[⟨some ("markdown"), [("y")], none, none⟩], none⟩

/-- C4 exactly as the claim states it: both checks consider only aligned
positions where BOTH cells are code kind: code-identity fails exactly when
some both-code position has differing concatenated content, and
outputs-presence fails exactly when some both-code position has original
outputs but zero translated outputs. -/
abbrev C4_claim_stated (o t : Document) : Prop :=
  ((validate_code_cells o t).1 = some false ↔
    ∃ pr ∈ o.cells.zip t.cells,
      pr.1.cell_type = some ("code") ∧ pr.2.cell_type = some ("code") ∧
      String.join pr.1.source ≠ String.join pr.2.source) ∧
  ((validate_outputs_present o t).1 = some false ↔
    ∃ pr ∈ o.cells.zip t.cells,
      pr.1.cell_type = some ("code") ∧ pr.2.cell_type = some ("code") ∧
      0 < (pr.1.outputs.getD []).length ∧ (pr.2.outputs.getD []).length = 0)

/-- C4 counterexample: with a code original aligned to a markdown-kind
translated cell there is no position where both sides are code, so the
claim says neither check flags anything, yet the code (which inspects only
the original side's kind) fails both checks on this pair. -/
theorem C4_counterexample : ¬ C4_claim_stated oC4 tC4 := by decide

/-- C4 amended: the code-identity and outputs-presence checks consider the
positions where the ORIGINAL cell is code kind (the translated side's kind
is not examined): code-identity fails exactly when some such position has
differing concatenated content, and outputs-presence fails exactly when
some such position has one or more original outputs and zero translated
outputs. -/
theorem C4_code_checks_amended (o t : Document) :
    ((validate_code_cells o t).1 = some false ↔
      ∃ pr ∈ o.cells.zip t.cells, pr.1.cell_type = some ("code") ∧
        String.join pr.1.source ≠ String.join pr.2.source) ∧
    ((validate_outputs_present o t).1 = some false ↔
      ∃ pr ∈ o.cells.zip t.cells, pr.1.cell_type = some ("code") ∧
        0 < (pr.1.outputs.getD []).length ∧ (pr.2.outputs.getD []).length = 0) := by
  constructor
  · have hfst : (validate_code_cells o t).1 = some false ↔
        ((o.cells.zip t.cells).enum.flatMap fun pr => codeMismatchLines pr.1 pr.2) ≠ [] := by
      by_cases hM : ((o.cells.zip t.cells).enum.flatMap fun pr =>
          codeMismatchLines pr.1 pr.2) ≠ []
      · simp [validate_code_cells, hM]
      · simp [validate_code_cells, hM]
    have hex : (∃ x ∈ (o.cells.zip t.cells).enum,
        (codeMismatchLines x.1 x.2 : List String) ≠ []) ↔
        ∃ x ∈ (o.cells.zip t.cells).enum,
          (x.2.1.cell_type = some ("code") ∧
           String.join x.2.1.source ≠ String.join x.2.2.source) := by
      constructor <;> rintro ⟨x, hx, hP⟩
      · exact ⟨x, hx, (codeMismatchLines_ne_nil x.1 x.2).mp hP⟩
      · exact ⟨x, hx, (codeMismatchLines_ne_nil x.1 x.2).mpr hP⟩
    exact hfst.trans ((flatMap_ne_nil_iff _ _).trans (hex.trans
      (exists_mem_enum (o.cells.zip t.cells) fun pr =>
        pr.1.cell_type = some ("code") ∧
        String.join pr.1.source ≠ String.join pr.2.source)))
  · have hfst : (validate_outputs_present o t).1 = some false ↔
        ((o.cells.zip t.cells).enum.filterMap fun pr =>
          missingOutputsLine pr.1 pr.2) ≠ [] := by
      by_cases hM : ((o.cells.zip t.cells).enum.filterMap fun pr =>
          missingOutputsLine pr.1 pr.2) ≠ []
      · simp [validate_outputs_present, hM]
      · simp [validate_outputs_present, hM]
    have hex : (∃ x ∈ (o.cells.zip t.cells).enum,
        missingOutputsLine x.1 x.2 ≠ none) ↔
        ∃ x ∈ (o.cells.zip t.cells).enum,
          (x.2.1.cell_type = some ("code") ∧ 0 < (x.2.1.outputs.getD []).length ∧
           (x.2.2.outputs.getD []).length = 0) := by
      constructor <;> rintro ⟨x, hx, hP⟩
      · exact ⟨x, hx, (missingOutputsLine_ne_none x.1 x.2).mp hP⟩
      · exact ⟨x, hx, (missingOutputsLine_ne_none x.1 x.2).mpr hP⟩
    exact hfst.trans ((filterMap_ne_nil_iff _ _).trans (hex.trans
      (exists_mem_enum (o.cells.zip t.cells) fun pr =>
        pr.1.cell_type = some ("code") ∧ 0 < (pr.1.outputs.getD []).length ∧
        (pr.2.outputs.getD []).length = 0)))

lemma zip_take_min {α β : Type} (l1 : List α) (l2 : List β) :
    l1.zip l2 =
      (l1.take (min l1.length l2.length)).zip (l2.take (min l1.length l2.length)) := by
  induction l1 generalizing l2 with
  | nil => simp
  | cons a as ih =>
    cases l2 with
    | nil => simp
    | cons b bs =>
      simp only [List.length_cons, Nat.succ_min_succ, List.take_succ_cons,
        List.zip_cons_cons]
      rw [← ih]

lemma syncLoop_drop (l1 l2 : List Cell) :
    (syncLoop l1 l2).1.drop (min l1.length l2.length) =
      l2.drop (min l1.length l2.length) := by
  induction l1 generalizing l2 with
  | nil => simp [syncLoop]
  | cons a as ih =>
    cases l2 with
    | nil => simp [syncLoop]
    | cons b bs =>
      simp only [syncLoop, List.length_cons, Nat.succ_min_succ, List.drop_succ_cons]
      exact ih bs

/-- C8: the synchronizer leaves every translated cell at an index at or
beyond `min(a, b)` unchanged, and the kind-alignment, code-identity,
translation-coverage and outputs-presence checks return identical results
and issues for any pair of documents of the same lengths agreeing on the
cells below `min(a, b)`. -/
theorem C8_frame (o t o2 t2 : Document)
    (ha : o2.cells.length = o.cells.length) (hb : t2.cells.length = t.cells.length)
    (hto : o2.cells.take (min o.cells.length t.cells.length) =
      o.cells.take (min o.cells.length t.cells.length))
    (htt : t2.cells.take (min o.cells.length t.cells.length) =
      t.cells.take (min o.cells.length t.cells.length)) :
    (sync_notebook_outputs o t).1.cells.drop (min o.cells.length t.cells.length) =
      t.cells.drop (min o.cells.length t.cells.length) ∧
    validate_cell_types o2 t2 = validate_cell_types o t ∧
    validate_code_cells o2 t2 = validate_code_cells o t ∧
    validate_markdown_translated o2 t2 = validate_markdown_translated o t ∧
    validate_outputs_present o2 t2 = validate_outputs_present o t := by
  have hz : o2.cells.zip t2.cells = o.cells.zip t.cells := by
    rw [zip_take_min o2.cells t2.cells, zip_take_min o.cells t.cells, ha, hb, hto, htt]
  refine ⟨?_, ?_, ?_, ?_, ?_⟩
  · have hc : (sync_notebook_outputs o t).1.cells = (syncLoop o.cells t.cells).1 := rfl
    rw [hc]
    exact syncLoop_drop o.cells t.cells
  · simp only [validate_cell_types, hz]
  · simp only [validate_code_cells, hz]
  · simp only [validate_markdown_translated, hz]
  · simp only [validate_outputs_present, hz]

lemma runChecks_append (l1 l2 : List (String × CheckFun)) (o t : Document) :
    runChecks (l1 ++ l2) o t =
      ((runChecks l1 o t).1 ++ (runChecks l2 o t).1,
       (runChecks l1 o t).2 ++ (runChecks l2 o t).2) := by
  induction l1 with
  | nil => simp [runChecks]
  | cons c cs ih =>
    obtain ⟨nm, f⟩ := c
    simp only [List.cons_append, runChecks, List.append_eq, ih, List.append_assoc]

/-- C9: if one entry of the check list raises (yields an exception) on the
given pair, the loop records that check alone as failed, appends its
partial issues followed by an issue carrying the error text, and every
other check before and after it contributes exactly the results and issues
it produces when run in isolation. -/
theorem C9_check_fault_isolation (pre post : List (String × CheckFun)) (nm : String)
    (f : CheckFun) (o t : Document) (e : String) (iss : List String)
    (hf : f o t = (Except.error e, iss)) :
    runChecks (pre ++ (nm, f) :: post) o t =
      ((runChecks pre o t).1 ++ (nm, some false) :: (runChecks post o t).1,
       (runChecks pre o t).2 ++ (iss ++ [errLine nm e]) ++ (runChecks post o t).2) := by
  have hmid : runChecks [(nm, f)] o t = ([(nm, some false)], iss ++ [errLine nm e]) := by
    simp [runChecks, hf]
  have hsplit : pre ++ (nm, f) :: post = pre ++ ([(nm, f)] ++ post) := rfl
  rw [hsplit, runChecks_append, runChecks_append, hmid]
  simp [List.append_assoc]

/-- C6 witness data: original code cell without outputs. -/
def c6oc : Cell := ⟨some ("code"), [], none, some (some 7)⟩

/-- C6 witness data: translated code cell holding pre-existing outputs. -/
def c6tc : Cell := ⟨some ("code"), [], some ([("keep")]), some none⟩

/-- C6 witness data: original document. -/
def oC6d : Document := ⟨[c6oc], none⟩

/-- C6 witness data: translated document. -/
def tC6d : Document := ⟨[c6tc], none⟩

theorem C6_witness :
    (oC6d.cells.get? 0 = some c6oc ∧ tC6d.cells.get? 0 = some c6tc ∧
     (c6oc.cell_type = some ("code") ∧ c6tc.cell_type = some ("code")) ∧
     (c6oc.outputs = none ∨ c6oc.outputs = some [])) ∧
    ((sync_notebook_outputs oC6d tC6d).1.cells.get? 0).map Cell.outputs =
      some c6tc.outputs :=
  ⟨⟨rfl, rfl, ⟨rfl, rfl⟩, Or.inl rfl⟩,
   C6_nondestructive oC6d tC6d 0 c6oc c6tc rfl rfl ⟨rfl, rfl⟩ (Or.inl rfl)⟩

/-- C10 witness data: original code cell with an execution count. -/
def c10oc : Cell := ⟨some ("code"), [], some ([("o1")]), some (some 3)⟩

/-- C10 witness data: translated code cell with a stale execution count. -/
def c10tc : Cell := ⟨some ("code"), [], none, some (some 9)⟩

/-- C10 witness data: original document. -/
def oC10d : Document := ⟨[c10oc], none⟩

/-- C10 witness data: translated document. -/
def tC10d : Document := ⟨[c10tc], none⟩

theorem C10_witness :
    (oC10d.cells.get? 0 = some c10oc ∧ tC10d.cells.get? 0 = some c10tc ∧
     c10oc.cell_type = some ("code") ∧ c10tc.cell_type = some ("code")) ∧
    ((sync_notebook_outputs oC10d tC10d).1.cells.get? 0).map Cell.execution_count =
      some (c10oc.execution_count.or c10tc.execution_count) :=
  ⟨⟨rfl, rfl, rfl, rfl⟩,
   C10_run_index_copy oC10d tC10d 0 c10oc c10tc rfl rfl ⟨rfl, rfl⟩⟩

/-- C8 witness data: shared markdown cell. -/
def mdX : Cell := ⟨some ("markdown"), [("x")], none, none⟩

/-- C8 witness data: second original cell, below the aligned prefix. -/
def codeY : Cell := ⟨some ("code"), [("y")], none, none⟩

/-- C8 witness data: replacement cell beyond the aligned prefix. -/
def codeZ : Cell := ⟨some ("code"), [("z")], none, none⟩

/-- C8 witness data: original document with 2 cells. -/
def oC8 : Document := ⟨[mdX, codeY], none⟩

/-- C8 witness data: translated document with 1 cell. -/
def tC8 : Document := ⟨[mdX], none⟩

/-- C8 witness data: original variant differing only beyond index 0. -/
def oC8b : Document := ⟨[mdX, codeZ], none⟩

/-- C8 witness data: translated variant differing only in the kernel. -/
def tC8b : Document := ⟨[mdX], some ("python3")⟩

theorem C8_witness :
    (oC8b.cells.length = oC8.cells.length ∧ tC8b.cells.length = tC8.cells.length ∧
     oC8b.cells.take (min oC8.cells.length tC8.cells.length) =
       oC8.cells.take (min oC8.cells.length tC8.cells.length) ∧
     tC8b.cells.take (min oC8.cells.length tC8.cells.length) =
       tC8.cells.take (min oC8.cells.length tC8.cells.length)) ∧
    ((sync_notebook_outputs oC8 tC8).1.cells.drop (min oC8.cells.length tC8.cells.length) =
       tC8.cells.drop (min oC8.cells.length tC8.cells.length) ∧
     validate_cell_types oC8b tC8b = validate_cell_types oC8 tC8 ∧
     validate_code_cells oC8b tC8b = validate_code_cells oC8 tC8 ∧
     validate_markdown_translated oC8b tC8b = validate_markdown_translated oC8 tC8 ∧
     validate_outputs_present oC8b tC8b = validate_outputs_present oC8 tC8) :=
  ⟨⟨rfl, rfl, rfl, rfl⟩, C8_frame oC8 tC8 oC8b tC8b rfl rfl rfl rfl⟩

/-- C9 witness data: a check that raises with message `boom` and appends
no issue before failing. -/
def c9fail : CheckFun := fun _ _ => (Except.error ("boom"), [])

/-- C9 witness data: checks preceding the faulty one. -/
def c9pre : List (String × CheckFun) := [(("Cell count"), liftCheck validate_cell_count)]

/-- C9 witness data: checks following the faulty one. -/
def c9post : List (String × CheckFun) := [(("Metadata"), liftCheck validate_metadata)]

theorem C9_witness :
    c9fail emptyDoc emptyDoc = (Except.error ("boom"), ([] : List String)) ∧
    runChecks (c9pre ++ (("Fault"), c9fail) :: c9post) emptyDoc emptyDoc =
      ((runChecks c9pre emptyDoc emptyDoc).1 ++
         (("Fault"), some false) :: (runChecks c9post emptyDoc emptyDoc).1,
       (runChecks c9pre emptyDoc emptyDoc).2 ++
         (([] : List String) ++ [errLine ("Fault") ("boom")]) ++
         (runChecks c9post emptyDoc emptyDoc).2) :=
  ⟨rfl, C9_check_fault_isolation c9pre c9post ("Fault") c9fail emptyDoc emptyDoc
    ("boom") [] rfl⟩
